import Mathlib

/-!
Verification development for the range-accrual Monte-Carlo pricing engine
(`src/models/cir.py`, `src/models/fx.py`, `src/models/range_accrual.py`).

Numpy arrays are modelled as a shape (`rows`, `cols`) together with a total
entry function; real-valued numpy arithmetic is modelled over `ℚ`, and the
opaque `np.sqrt` routine is passed in as an explicit function parameter
`sqrtFn : ℚ → ℚ` so that every definition stays executable. Normal draws
(`scipy.stats.norm().rvs`) are modelled as an explicit input
`Z : ℕ → ℕ → ℚ` giving the draw for simulation `i` at step `k`.
-/

set_option linter.unusedVariables false

/-- Model of a 2-D numpy array: a logical shape plus a total entry function
(entries outside the shape are irrelevant to every statement below). -/
structure Mat where
  rows : ℕ
  cols : ℕ
  entry : ℕ → ℕ → ℚ

/-- Euler-Maruyama recursion of `CoxIngersollRossModel.make_interest_rate_simulations`
(`cir.py` lines 87-99): value of simulation `i` after `k` steps. Step line:
`r_previous + self.a * (self.b - r_previous) * self.delta_t
 + self.sigma * np.sqrt(np.abs(r_previous) * self.delta_t) * wiener_multiplier`. -/
def cirPath (sqrtFn : ℚ → ℚ) (a b sigma delta_t : ℚ) (Z : ℕ → ℕ → ℚ)
    (r0 : ℚ) (i : ℕ) : ℕ → ℚ
  | 0 => r0
  | k + 1 =>
    let r_previous := cirPath sqrtFn a b sigma delta_t Z r0 i k
    r_previous + a * (b - r_previous) * delta_t
      + sigma * sqrtFn (|r_previous| * delta_t) * Z i k

/-- Embedding of `CoxIngersollRossModel.make_interest_rate_simulations`
(`cir.py` lines 87-99): starts from the column `r0 * np.ones((n_simulations, 1))`,
hstacks one Euler-Maruyama column per step, and returns the path matrix together
with `np.mean` of the terminal column and `np.std(terminal) / np.sqrt(n_simulations)`
(numpy population standard deviation, `ddof = 0`). -/
def make_interest_rate_simulations (sqrtFn : ℚ → ℚ) (a b sigma delta_t : ℚ)
    (Z : ℕ → ℕ → ℚ) (r0 : ℚ) (n_simulations t_steps : ℕ) : Mat × ℚ × ℚ :=
  let r : Mat := ⟨n_simulations, t_steps + 1,
    fun i k => cirPath sqrtFn a b sigma delta_t Z r0 i k⟩
  let last_t_simulation : ℕ → ℚ := fun i => r.entry i t_steps
  let mean : ℚ := (∑ i ∈ Finset.range n_simulations, last_t_simulation i) / n_simulations
  let std : ℚ := sqrtFn
    ((∑ i ∈ Finset.range n_simulations, (last_t_simulation i - mean) ^ 2) / n_simulations)
  (r, mean, std / sqrtFn n_simulations)

/-- Recursion of `fx_rate_predict` (`fx.py` lines 5-29): value of FX simulation
`i` after `k` steps, with `dt = 1 / t_steps` precomputed by the caller. Step line:
`fx_previous + fx_previous * (((rt_foreign - rt_domestic) / 100) * dt
 + sigma * wiener_multiplier)`, where `rt_domestic` and `rt_foreign` are
column `k` of the rate matrices. -/
def fxPathRec (dt fx0 sigma : ℚ) (domestic_rate foreign_rate : ℕ → ℕ → ℚ)
    (Z : ℕ → ℕ → ℚ) (i : ℕ) : ℕ → ℚ
  | 0 => fx0
  | k + 1 =>
    let fx_previous := fxPathRec dt fx0 sigma domestic_rate foreign_rate Z i k
    fx_previous + fx_previous *
      (((foreign_rate i k - domestic_rate i k) / 100) * dt + sigma * Z i k)

/-- Embedding of `fx_rate_predict` (`fx.py` lines 5-29): sets `dt = 1 / t_steps`,
starts from `fx0 * np.ones((n_simulations, 1))` and hstacks one column per step. -/
def fx_rate_predict (n_simulations t_steps : ℕ) (fx0 : ℚ)
    (domestic_rate foreign_rate : Mat) (sigma : ℚ) (Z : ℕ → ℕ → ℚ) : Mat :=
  let dt : ℚ := 1 / t_steps
  ⟨n_simulations, t_steps + 1,
    fun i k => fxPathRec dt fx0 sigma domestic_rate.entry foreign_rate.entry Z i k⟩

/-- C4: for every `r0`, `nSimulations ≥ 1`, `tSteps ≥ 0` and parameters with
`a > 0`, the path matrix returned by `make_interest_rate_simulations` has
exactly `tSteps + 1` columns and its column 0 equals `r0` in every row. -/
theorem C4_simulate_shape_and_start (sqrtFn : ℚ → ℚ) (a b sigma delta_t : ℚ)
    (Z : ℕ → ℕ → ℚ) (r0 : ℚ) (n_simulations t_steps : ℕ)
    (ha : 0 < a) (hn : 1 ≤ n_simulations) :
    (make_interest_rate_simulations sqrtFn a b sigma delta_t Z r0
        n_simulations t_steps).1.cols = t_steps + 1 ∧
    (make_interest_rate_simulations sqrtFn a b sigma delta_t Z r0
        n_simulations t_steps).1.rows = n_simulations ∧
    ∀ i < n_simulations,
      (make_interest_rate_simulations sqrtFn a b sigma delta_t Z r0
        n_simulations t_steps).1.entry i 0 = r0 := by
  refine ⟨rfl, rfl, fun i _ => rfl⟩

/-- C5: in `make_interest_rate_simulations`, every simulation row `i` and step
`k` satisfy exactly `r_{k+1} = r_k + a*(b - r_k)*delta_t
+ sigma*sqrt(|r_k|*delta_t)*Z_{i,k}` (absolute value of `r_k` under the square
root), and the function also returns the mean of the terminal column and the
standard error `std / sqrt(n_simulations)` of that column. -/
theorem C5_euler_maruyama_step_and_stats (sqrtFn : ℚ → ℚ) (a b sigma delta_t : ℚ)
    (Z : ℕ → ℕ → ℚ) (r0 : ℚ) (n_simulations t_steps i k : ℕ)
    (hi : i < n_simulations) (hk : k < t_steps) :
    (make_interest_rate_simulations sqrtFn a b sigma delta_t Z r0
        n_simulations t_steps).1.entry i (k + 1) =
      (make_interest_rate_simulations sqrtFn a b sigma delta_t Z r0
          n_simulations t_steps).1.entry i k
        + a * (b - (make_interest_rate_simulations sqrtFn a b sigma delta_t Z r0
            n_simulations t_steps).1.entry i k) * delta_t
        + sigma * sqrtFn (|(make_interest_rate_simulations sqrtFn a b sigma delta_t Z r0
            n_simulations t_steps).1.entry i k| * delta_t) * Z i k ∧
    (make_interest_rate_simulations sqrtFn a b sigma delta_t Z r0
        n_simulations t_steps).2.1 =
      (∑ j ∈ Finset.range n_simulations,
        (make_interest_rate_simulations sqrtFn a b sigma delta_t Z r0
          n_simulations t_steps).1.entry j t_steps) / n_simulations ∧
    (make_interest_rate_simulations sqrtFn a b sigma delta_t Z r0
        n_simulations t_steps).2.2 =
      sqrtFn ((∑ j ∈ Finset.range n_simulations,
          ((make_interest_rate_simulations sqrtFn a b sigma delta_t Z r0
              n_simulations t_steps).1.entry j t_steps -
            (make_interest_rate_simulations sqrtFn a b sigma delta_t Z r0
              n_simulations t_steps).2.1) ^ 2) / n_simulations)
        / sqrtFn n_simulations :=
  ⟨rfl, rfl, rfl⟩

/-- Witness for C5 at concrete inputs. -/
theorem C5_euler_maruyama_step_and_stats_witness :
    (1 : ℕ) < 2 ∧ (2 : ℕ) < 3 ∧
    ((make_interest_rate_simulations id 2 5 1 (1 / 10) (fun _ _ => 1) 4 2 3).1.entry 1 3 =
      (make_interest_rate_simulations id 2 5 1 (1 / 10) (fun _ _ => 1) 4 2 3).1.entry 1 2
        + 2 * (5 - (make_interest_rate_simulations id 2 5 1 (1 / 10)
            (fun _ _ => 1) 4 2 3).1.entry 1 2) * (1 / 10)
        + 1 * id (|(make_interest_rate_simulations id 2 5 1 (1 / 10)
            (fun _ _ => 1) 4 2 3).1.entry 1 2| * (1 / 10)) * 1 ∧
     (make_interest_rate_simulations id 2 5 1 (1 / 10) (fun _ _ => 1) 4 2 3).2.1 =
      (∑ j ∈ Finset.range 2,
        (make_interest_rate_simulations id 2 5 1 (1 / 10)
          (fun _ _ => 1) 4 2 3).1.entry j 3) / 2 ∧
     (make_interest_rate_simulations id 2 5 1 (1 / 10) (fun _ _ => 1) 4 2 3).2.2 =
      id ((∑ j ∈ Finset.range 2,
          ((make_interest_rate_simulations id 2 5 1 (1 / 10)
              (fun _ _ => 1) 4 2 3).1.entry j 3 -
            (make_interest_rate_simulations id 2 5 1 (1 / 10)
              (fun _ _ => 1) 4 2 3).2.1) ^ 2) / 2) / id 2) :=
  ⟨by norm_num, by norm_num,
    C5_euler_maruyama_step_and_stats id 2 5 1 (1 / 10) (fun _ _ => 1) 4 2 3 1 2
      (by norm_num) (by norm_num)⟩

/-- C6: `fx_rate_predict` returns a matrix whose column 0 equals `fx0` in every
row and whose step satisfies `fx_{k+1} = fx_k * (1 + ((foreign_k - domestic_k)/100)*dt
+ sigma*Z_k)` with `dt = 1/tSteps`, driven by column `k` of the same simulation
row of the foreign and domestic path matrices. -/
theorem C6_fx_start_and_step (n_simulations t_steps : ℕ) (fx0 : ℚ)
    (domestic_rate foreign_rate : Mat) (sigma : ℚ) (Z : ℕ → ℕ → ℚ) (i k : ℕ)
    (ht : 1 ≤ t_steps) (hi : i < n_simulations) (hk : k < t_steps) :
    (fx_rate_predict n_simulations t_steps fx0 domestic_rate foreign_rate sigma Z).entry i 0
      = fx0 ∧
    (fx_rate_predict n_simulations t_steps fx0 domestic_rate foreign_rate sigma Z).entry i (k + 1)
      = (fx_rate_predict n_simulations t_steps fx0 domestic_rate foreign_rate sigma Z).entry i k
        * (1 + ((foreign_rate.entry i k - domestic_rate.entry i k) / 100) * (1 / t_steps)
          + sigma * Z i k) := by
  constructor
  · rfl
  · have hentry : ∀ m,
        (fx_rate_predict n_simulations t_steps fx0 domestic_rate foreign_rate sigma Z).entry i m
          = fxPathRec (1 / (t_steps : ℚ)) fx0 sigma domestic_rate.entry foreign_rate.entry Z i m :=
      fun _ => rfl
    rw [hentry, hentry, fxPathRec]
    ring

/-- Witness for C6 at concrete inputs. -/
theorem C6_fx_start_and_step_witness :
    (1 : ℕ) ≤ 2 ∧ (0 : ℕ) < 1 ∧ (1 : ℕ) < 2 ∧
    ((fx_rate_predict 1 2 70 ⟨1, 3, fun _ _ => 8⟩ ⟨1, 3, fun _ _ => 3⟩ (1 / 20)
        (fun _ _ => 1)).entry 0 0 = 70 ∧
     (fx_rate_predict 1 2 70 ⟨1, 3, fun _ _ => 8⟩ ⟨1, 3, fun _ _ => 3⟩ (1 / 20)
        (fun _ _ => 1)).entry 0 2
      = (fx_rate_predict 1 2 70 ⟨1, 3, fun _ _ => 8⟩ ⟨1, 3, fun _ _ => 3⟩ (1 / 20)
          (fun _ _ => 1)).entry 0 1
        * (1 + ((3 - 8) / 100) * (1 / 2) + (1 / 20) * 1)) := by
  refine ⟨by norm_num, by norm_num, by norm_num, ?_⟩
  have h := C6_fx_start_and_step 1 2 70 ⟨1, 3, fun _ _ => 8⟩ ⟨1, 3, fun _ _ => 3⟩ (1 / 20)
    (fun _ _ => 1) 0 1 (by norm_num) (by norm_num) (by norm_num)
  simpa using h

/-- Witness for C4 at concrete inputs. -/
theorem C4_simulate_shape_and_start_witness :
    (0 : ℚ) < 2 ∧ 1 ≤ 3 ∧
    ((make_interest_rate_simulations id 2 5 1 (1 / 10) (fun _ _ => 1) 4 3 6).1.cols = 7 ∧
     (make_interest_rate_simulations id 2 5 1 (1 / 10) (fun _ _ => 1) 4 3 6).1.rows = 3 ∧
     ∀ i < 3,
       (make_interest_rate_simulations id 2 5 1 (1 / 10) (fun _ _ => 1) 4 3 6).1.entry i 0 = 4) :=
  ⟨by norm_num, by norm_num,
    C4_simulate_shape_and_start id 2 5 1 (1 / 10) (fun _ _ => 1) 4 3 6
      (by norm_num) (by norm_num)⟩

/-- Product of a 3x3 matrix with a 3-column-indexed matrix, the specialization
of `np.matmul(chol_matrix, uncorr_sim.T)` in `simulation_correlation`
(`fx.py` lines 32-68): inner dimension 3. -/
def matmul3 (A B : ℕ → ℕ → ℚ) : ℕ → ℕ → ℚ :=
  fun j k => A j 0 * B 0 k + A j 1 * B 1 k + A j 2 * B 2 k

/-- Transpose of the per-simulation matrix `uncorr_sim` of `simulation_correlation`
(`fx.py` lines 42-46 and 55-59): `uncorr_sim` is `(t_steps+1) x 3` with columns
`(usd_vector, rur_vector, fx_vector)` of simulation `i`, so its transpose at
`(l, k)` selects factor `l` of simulation row `i` at time `k`. -/
def uncorrT (simulated_usd_rate simulated_rur_rate simulated_fx_rate : Mat)
    (i : ℕ) : ℕ → ℕ → ℚ :=
  fun l k =>
    if l = 0 then simulated_usd_rate.entry i k
    else if l = 1 then simulated_rur_rate.entry i k
    else simulated_fx_rate.entry i k

/-- Embedding of `simulation_correlation` (`fx.py` lines 32-68). The source
computes `corr_sim = np.matmul(chol_matrix, uncorr_sim.T).T` for simulation 0,
takes `corr_sim.T[0] / [1] / [2]` as the first `(t_steps+1) x 1` columns of the
three outputs, then loops `n_sim in range(1, n_simulations)` appending one
column per simulation by the identical computation. The outputs therefore have
`simulated_usd_rate.cols` rows and `max 1 n_simulations` columns (the column
for simulation 0 is built even when `n_simulations = 0`), and column `i` holds
`chol_matrix` applied to the three factor series of simulation `i`. -/
def simulation_correlation
    (simulated_usd_rate simulated_rur_rate simulated_fx_rate : Mat)
    (n_simulations : ℕ) (chol_matrix : ℕ → ℕ → ℚ) : Mat × Mat × Mat :=
  let corrT : ℕ → ℕ → ℕ → ℚ := fun i =>
    matmul3 chol_matrix
      (uncorrT simulated_usd_rate simulated_rur_rate simulated_fx_rate i)
  let out_rows := simulated_usd_rate.cols
  let out_cols := max 1 n_simulations
  (⟨out_rows, out_cols, fun k i => corrT i 0 k⟩,
   ⟨out_rows, out_cols, fun k i => corrT i 1 k⟩,
   ⟨out_rows, out_cols, fun k i => corrT i 2 k⟩)

/-- Identity 3x3 correlation factor. -/
def identity3 : ℕ → ℕ → ℚ := fun i j => if i = j then 1 else 0

/-- Numerical identity of two modelled numpy arrays: same shape and the same
value at every in-shape position. -/
def MatIdentical (A B : Mat) : Prop :=
  A.rows = B.rows ∧ A.cols = B.cols ∧
  ∀ i < A.rows, ∀ k < A.cols, A.entry i k = B.entry i k

instance instDecidableMatIdentical (A B : Mat) : Decidable (MatIdentical A B) := by
  unfold MatIdentical
  infer_instance

/-- Counterexample to C2 as stated: with `1 x 2` inputs, one simulation and the
identity correlation factor, `simulation_correlation` returns `2 x 1` outputs
(the transposes of the inputs), which are not numerically identical to the
inputs. -/
theorem C2_counterexample :
    ¬ (MatIdentical (simulation_correlation
          ⟨1, 2, fun _ k => if k = 0 then 5 else 7⟩
          ⟨1, 2, fun _ k => if k = 0 then 11 else 13⟩
          ⟨1, 2, fun _ k => if k = 0 then 70 else 75⟩ 1 identity3).1
        ⟨1, 2, fun _ k => if k = 0 then 5 else 7⟩ ∧
       MatIdentical (simulation_correlation
          ⟨1, 2, fun _ k => if k = 0 then 5 else 7⟩
          ⟨1, 2, fun _ k => if k = 0 then 11 else 13⟩
          ⟨1, 2, fun _ k => if k = 0 then 70 else 75⟩ 1 identity3).2.1
        ⟨1, 2, fun _ k => if k = 0 then 11 else 13⟩ ∧
       MatIdentical (simulation_correlation
          ⟨1, 2, fun _ k => if k = 0 then 5 else 7⟩
          ⟨1, 2, fun _ k => if k = 0 then 11 else 13⟩
          ⟨1, 2, fun _ k => if k = 0 then 70 else 75⟩ 1 identity3).2.2
        ⟨1, 2, fun _ k => if k = 0 then 70 else 75⟩) := by
  decide

/-- C2 amended: with the identity correlation factor, `simulation_correlation`
returns the transposes of its inputs: each output has `cols` of the input as
row count and `n_simulations` as column count, and entry `(k, i)` equals the
corresponding input entry `(i, k)`. -/
theorem C2_identity_gives_transposed_inputs
    (usd rur fx : Mat) (n_simulations : ℕ) (hn : 1 ≤ n_simulations) :
    ((simulation_correlation usd rur fx n_simulations identity3).1.rows = usd.cols ∧
     (simulation_correlation usd rur fx n_simulations identity3).1.cols = n_simulations ∧
     ∀ k < usd.cols, ∀ i < n_simulations,
       (simulation_correlation usd rur fx n_simulations identity3).1.entry k i
         = usd.entry i k) ∧
    ((simulation_correlation usd rur fx n_simulations identity3).2.1.rows = usd.cols ∧
     (simulation_correlation usd rur fx n_simulations identity3).2.1.cols = n_simulations ∧
     ∀ k < usd.cols, ∀ i < n_simulations,
       (simulation_correlation usd rur fx n_simulations identity3).2.1.entry k i
         = rur.entry i k) ∧
    ((simulation_correlation usd rur fx n_simulations identity3).2.2.rows = usd.cols ∧
     (simulation_correlation usd rur fx n_simulations identity3).2.2.cols = n_simulations ∧
     ∀ k < usd.cols, ∀ i < n_simulations,
       (simulation_correlation usd rur fx n_simulations identity3).2.2.entry k i
         = fx.entry i k) := by
  refine ⟨⟨rfl, max_eq_right hn, fun k _ i _ => ?_⟩,
          ⟨rfl, max_eq_right hn, fun k _ i _ => ?_⟩,
          ⟨rfl, max_eq_right hn, fun k _ i _ => ?_⟩⟩ <;>
    norm_num [simulation_correlation, matmul3, uncorrT, identity3]

/-- Witness for the amended C2 at concrete inputs. -/
theorem C2_identity_gives_transposed_inputs_witness :
    (1 : ℕ) ≤ 2 ∧
    (((simulation_correlation ⟨2, 3, fun i k => i + k⟩ ⟨2, 3, fun i k => i * k⟩
          ⟨2, 3, fun i k => i - k⟩ 2 identity3).1.rows = 3 ∧
      (simulation_correlation ⟨2, 3, fun i k => i + k⟩ ⟨2, 3, fun i k => i * k⟩
          ⟨2, 3, fun i k => i - k⟩ 2 identity3).1.cols = 2 ∧
      ∀ k < 3, ∀ i < 2,
        (simulation_correlation ⟨2, 3, fun i k => i + k⟩ ⟨2, 3, fun i k => i * k⟩
            ⟨2, 3, fun i k => i - k⟩ 2 identity3).1.entry k i
          = (Mat.mk 2 3 fun i k => i + k).entry i k) ∧
     ((simulation_correlation ⟨2, 3, fun i k => i + k⟩ ⟨2, 3, fun i k => i * k⟩
          ⟨2, 3, fun i k => i - k⟩ 2 identity3).2.1.rows = 3 ∧
      (simulation_correlation ⟨2, 3, fun i k => i + k⟩ ⟨2, 3, fun i k => i * k⟩
          ⟨2, 3, fun i k => i - k⟩ 2 identity3).2.1.cols = 2 ∧
      ∀ k < 3, ∀ i < 2,
        (simulation_correlation ⟨2, 3, fun i k => i + k⟩ ⟨2, 3, fun i k => i * k⟩
            ⟨2, 3, fun i k => i - k⟩ 2 identity3).2.1.entry k i
          = (Mat.mk 2 3 fun i k => i * k).entry i k) ∧
     ((simulation_correlation ⟨2, 3, fun i k => i + k⟩ ⟨2, 3, fun i k => i * k⟩
          ⟨2, 3, fun i k => i - k⟩ 2 identity3).2.2.rows = 3 ∧
      (simulation_correlation ⟨2, 3, fun i k => i + k⟩ ⟨2, 3, fun i k => i * k⟩
          ⟨2, 3, fun i k => i - k⟩ 2 identity3).2.2.cols = 2 ∧
      ∀ k < 3, ∀ i < 2,
        (simulation_correlation ⟨2, 3, fun i k => i + k⟩ ⟨2, 3, fun i k => i * k⟩
            ⟨2, 3, fun i k => i - k⟩ 2 identity3).2.2.entry k i
          = (Mat.mk 2 3 fun i k => i - k).entry i k)) :=
  ⟨by norm_num,
    C2_identity_gives_transposed_inputs ⟨2, 3, fun i k => i + k⟩
      ⟨2, 3, fun i k => i * k⟩ ⟨2, 3, fun i k => i - k⟩ 2 (by norm_num)⟩

/-- Counterexample to C3 as stated: with `1 x 3` inputs and one simulation, the
outputs of `simulation_correlation` do not have the input shape
`n_simulations x (t_steps + 1) = 1 x 3`; they are `3 x 1`. -/
theorem C3_counterexample :
    ¬ ((simulation_correlation ⟨1, 3, fun _ k => k⟩ ⟨1, 3, fun _ k => 2 * k⟩
          ⟨1, 3, fun _ k => 3 * k⟩ 1 identity3).1.rows = 1 ∧
       (simulation_correlation ⟨1, 3, fun _ k => k⟩ ⟨1, 3, fun _ k => 2 * k⟩
          ⟨1, 3, fun _ k => 3 * k⟩ 1 identity3).1.cols = 3 ∧
       (simulation_correlation ⟨1, 3, fun _ k => k⟩ ⟨1, 3, fun _ k => 2 * k⟩
          ⟨1, 3, fun _ k => 3 * k⟩ 1 identity3).2.1.rows = 1 ∧
       (simulation_correlation ⟨1, 3, fun _ k => k⟩ ⟨1, 3, fun _ k => 2 * k⟩
          ⟨1, 3, fun _ k => 3 * k⟩ 1 identity3).2.1.cols = 3 ∧
       (simulation_correlation ⟨1, 3, fun _ k => k⟩ ⟨1, 3, fun _ k => 2 * k⟩
          ⟨1, 3, fun _ k => 3 * k⟩ 1 identity3).2.2.rows = 1 ∧
       (simulation_correlation ⟨1, 3, fun _ k => k⟩ ⟨1, 3, fun _ k => 2 * k⟩
          ⟨1, 3, fun _ k => 3 * k⟩ 1 identity3).2.2.cols = 3) := by
  decide

/-- C3 amended: the three outputs of `simulation_correlation` all have shape
`(t_steps + 1) x n_simulations` (the transpose of the input shape), and the
correlated series in output column `i` depends only on the three input series
of simulation row `i`: inputs agreeing on row `i` give outputs agreeing on
column `i`. -/
theorem C3_shape_and_locality
    (usd rur fx usd2 rur2 fx2 : Mat) (n_simulations : ℕ) (chol : ℕ → ℕ → ℚ)
    (i : ℕ) (hn : 1 ≤ n_simulations)
    (husd : ∀ k, usd.entry i k = usd2.entry i k)
    (hrur : ∀ k, rur.entry i k = rur2.entry i k)
    (hfx : ∀ k, fx.entry i k = fx2.entry i k) :
    ((simulation_correlation usd rur fx n_simulations chol).1.rows = usd.cols ∧
     (simulation_correlation usd rur fx n_simulations chol).1.cols = n_simulations ∧
     (simulation_correlation usd rur fx n_simulations chol).2.1.rows = usd.cols ∧
     (simulation_correlation usd rur fx n_simulations chol).2.1.cols = n_simulations ∧
     (simulation_correlation usd rur fx n_simulations chol).2.2.rows = usd.cols ∧
     (simulation_correlation usd rur fx n_simulations chol).2.2.cols = n_simulations) ∧
    ∀ k,
      (simulation_correlation usd rur fx n_simulations chol).1.entry k i
        = (simulation_correlation usd2 rur2 fx2 n_simulations chol).1.entry k i ∧
      (simulation_correlation usd rur fx n_simulations chol).2.1.entry k i
        = (simulation_correlation usd2 rur2 fx2 n_simulations chol).2.1.entry k i ∧
      (simulation_correlation usd rur fx n_simulations chol).2.2.entry k i
        = (simulation_correlation usd2 rur2 fx2 n_simulations chol).2.2.entry k i := by
  refine ⟨⟨rfl, max_eq_right hn, rfl, max_eq_right hn, rfl, max_eq_right hn⟩, fun k => ?_⟩
  refine ⟨?_, ?_, ?_⟩ <;>
    simp only [simulation_correlation, matmul3, uncorrT, husd k, hrur k, hfx k]

/-- Witness for the amended C3 at concrete inputs: the two input triples agree
on simulation row 0 but differ on row 1, and the outputs agree on column 0. -/
theorem C3_shape_and_locality_witness :
    (1 : ℕ) ≤ 2 ∧
    (((simulation_correlation ⟨2, 2, fun i k => if i = 0 then k else 5⟩
          ⟨2, 2, fun i k => if i = 0 then k + 1 else 6⟩
          ⟨2, 2, fun i k => if i = 0 then k + 2 else 7⟩ 2 identity3).1.rows = 2 ∧
      (simulation_correlation ⟨2, 2, fun i k => if i = 0 then k else 5⟩
          ⟨2, 2, fun i k => if i = 0 then k + 1 else 6⟩
          ⟨2, 2, fun i k => if i = 0 then k + 2 else 7⟩ 2 identity3).1.cols = 2 ∧
      (simulation_correlation ⟨2, 2, fun i k => if i = 0 then k else 5⟩
          ⟨2, 2, fun i k => if i = 0 then k + 1 else 6⟩
          ⟨2, 2, fun i k => if i = 0 then k + 2 else 7⟩ 2 identity3).2.1.rows = 2 ∧
      (simulation_correlation ⟨2, 2, fun i k => if i = 0 then k else 5⟩
          ⟨2, 2, fun i k => if i = 0 then k + 1 else 6⟩
          ⟨2, 2, fun i k => if i = 0 then k + 2 else 7⟩ 2 identity3).2.1.cols = 2 ∧
      (simulation_correlation ⟨2, 2, fun i k => if i = 0 then k else 5⟩
          ⟨2, 2, fun i k => if i = 0 then k + 1 else 6⟩
          ⟨2, 2, fun i k => if i = 0 then k + 2 else 7⟩ 2 identity3).2.2.rows = 2 ∧
      (simulation_correlation ⟨2, 2, fun i k => if i = 0 then k else 5⟩
          ⟨2, 2, fun i k => if i = 0 then k + 1 else 6⟩
          ⟨2, 2, fun i k => if i = 0 then k + 2 else 7⟩ 2 identity3).2.2.cols = 2) ∧
     ∀ k,
       (simulation_correlation ⟨2, 2, fun i k => if i = 0 then k else 5⟩
           ⟨2, 2, fun i k => if i = 0 then k + 1 else 6⟩
           ⟨2, 2, fun i k => if i = 0 then k + 2 else 7⟩ 2 identity3).1.entry k 0
         = (simulation_correlation ⟨2, 2, fun i k => if i = 0 then k else 9⟩
             ⟨2, 2, fun i k => if i = 0 then k + 1 else 8⟩
             ⟨2, 2, fun i k => if i = 0 then k + 2 else 4⟩ 2 identity3).1.entry k 0 ∧
       (simulation_correlation ⟨2, 2, fun i k => if i = 0 then k else 5⟩
           ⟨2, 2, fun i k => if i = 0 then k + 1 else 6⟩
           ⟨2, 2, fun i k => if i = 0 then k + 2 else 7⟩ 2 identity3).2.1.entry k 0
         = (simulation_correlation ⟨2, 2, fun i k => if i = 0 then k else 9⟩
             ⟨2, 2, fun i k => if i = 0 then k + 1 else 8⟩
             ⟨2, 2, fun i k => if i = 0 then k + 2 else 4⟩ 2 identity3).2.1.entry k 0 ∧
       (simulation_correlation ⟨2, 2, fun i k => if i = 0 then k else 5⟩
           ⟨2, 2, fun i k => if i = 0 then k + 1 else 6⟩
           ⟨2, 2, fun i k => if i = 0 then k + 2 else 7⟩ 2 identity3).2.2.entry k 0
         = (simulation_correlation ⟨2, 2, fun i k => if i = 0 then k else 9⟩
             ⟨2, 2, fun i k => if i = 0 then k + 1 else 8⟩
             ⟨2, 2, fun i k => if i = 0 then k + 2 else 4⟩ 2 identity3).2.2.entry k 0) :=
  ⟨by norm_num,
    C3_shape_and_locality ⟨2, 2, fun i k => if i = 0 then k else 5⟩
      ⟨2, 2, fun i k => if i = 0 then k + 1 else 6⟩
      ⟨2, 2, fun i k => if i = 0 then k + 2 else 7⟩
      ⟨2, 2, fun i k => if i = 0 then k else 9⟩
      ⟨2, 2, fun i k => if i = 0 then k + 1 else 8⟩
      ⟨2, 2, fun i k => if i = 0 then k + 2 else 4⟩ 2 identity3 0 (by norm_num)
      (fun k => by norm_num) (fun k => by norm_num) (fun k => by norm_num)⟩

/-- Number of winning fixing dates for one simulation column of `range_accrual`
(`range_accrual.py` lines 7-27): the loop `for fx_sim in fx_corr[1:].T` walks
the columns of `fx_corr` with row 0 dropped, and counts
`np.sum((lower_bound <= fx_sim) & (upper_bound >= fx_sim))` when
`upper_bound > 0`, else `np.sum(lower_bound <= fx_sim)`. -/
def win_count (fx_corr : Mat) (j : ℕ) (upper_bound lower_bound : ℚ) : ℕ :=
  if 0 < upper_bound then
    ((Finset.Ico 1 fx_corr.rows).filter
      (fun k => lower_bound ≤ fx_corr.entry k j ∧ fx_corr.entry k j ≤ upper_bound)).card
  else
    ((Finset.Ico 1 fx_corr.rows).filter (fun k => lower_bound ≤ fx_corr.entry k j)).card

/-- Embedding of `range_accrual` (`range_accrual.py` lines 7-27): per column
the share of winning fixing dates is the win count divided by `n_fix_dates`,
each share is multiplied by `notional` and accumulated, and the total is
divided by `n_simulations`. -/
def range_accrual (notional : ℚ) (n_fix_dates n_simulations : ℕ) (fx_corr : Mat)
    (upper_bound lower_bound : ℚ) : ℚ :=
  (∑ j ∈ Finset.range fx_corr.cols,
    notional * ((win_count fx_corr j upper_bound lower_bound : ℚ) / n_fix_dates))
    / n_simulations

/-- Helper bound: a column's win count never exceeds the number of non-initial
rows of the path matrix. -/
theorem win_count_le_rows (fx_corr : Mat) (j : ℕ) (upper_bound lower_bound : ℚ) :
    win_count fx_corr j upper_bound lower_bound ≤ fx_corr.rows - 1 := by
  unfold win_count
  split <;>
    exact le_trans (Finset.card_filter_le _ _) (le_of_eq (Nat.card_Ico 1 fx_corr.rows))

/-- C9: on a path matrix with `1 + n_fix_dates` rows and `n_simulations`
columns, if the lower bound is below every simulated FX value and
`upper_bound = 0` (unbounded above), `range_accrual` returns exactly the
notional. -/
theorem C9_always_in_range_pays_notional (notional lower_bound : ℚ)
    (n_fix_dates n_simulations : ℕ) (fx_corr : Mat)
    (hf : 1 ≤ n_fix_dates) (hs : 1 ≤ n_simulations)
    (hrows : fx_corr.rows = 1 + n_fix_dates) (hcols : fx_corr.cols = n_simulations)
    (hlb : ∀ k < fx_corr.rows, ∀ j < fx_corr.cols, lower_bound ≤ fx_corr.entry k j) :
    range_accrual notional n_fix_dates n_simulations fx_corr 0 lower_bound = notional := by
  have hfQ : (n_fix_dates : ℚ) ≠ 0 := Nat.cast_ne_zero.mpr (by omega)
  have hsQ : (n_simulations : ℚ) ≠ 0 := Nat.cast_ne_zero.mpr (by omega)
  have hcard : ∀ j ∈ Finset.range fx_corr.cols,
      notional * ((win_count fx_corr j 0 lower_bound : ℚ) / n_fix_dates) = notional := by
    intro j hj
    have hwin : win_count fx_corr j 0 lower_bound = n_fix_dates := by
      unfold win_count
      rw [if_neg (lt_irrefl (0 : ℚ))]
      rw [Finset.filter_true_of_mem]
      · rw [Nat.card_Ico, hrows]
        omega
      · intro k hk
        exact hlb k (Finset.mem_Ico.mp hk).2 j (Finset.mem_range.mp hj)
    rw [hwin, div_self hfQ, mul_one]
  unfold range_accrual
  rw [Finset.sum_congr rfl hcard, Finset.sum_const, Finset.card_range, hcols,
    nsmul_eq_mul]
  exact mul_div_cancel_left₀ notional hsQ

/-- Witness for C9 at concrete inputs. -/
theorem C9_always_in_range_pays_notional_witness :
    (1 : ℕ) ≤ 2 ∧ (1 : ℕ) ≤ 2 ∧
    (Mat.mk 3 2 fun k j => 50 + k + j).rows = 1 + 2 ∧
    (Mat.mk 3 2 fun k j => 50 + k + j).cols = 2 ∧
    (∀ k < (Mat.mk 3 2 fun k j => 50 + k + j).rows,
      ∀ j < (Mat.mk 3 2 fun k j => 50 + k + j).cols,
        (1 : ℚ) ≤ (Mat.mk 3 2 fun k j => 50 + k + j).entry k j) ∧
    range_accrual 100 2 2 ⟨3, 2, fun k j => 50 + k + j⟩ 0 1 = 100 :=
  ⟨by norm_num, by norm_num, rfl, rfl,
    fun k _ j _ => by
      simp only [Mat.entry]
      have hk : (0 : ℚ) ≤ k := Nat.cast_nonneg k
      have hj2 : (0 : ℚ) ≤ j := Nat.cast_nonneg j
      linarith,
    C9_always_in_range_pays_notional 100 1 2 2 ⟨3, 2, fun k j => 50 + k + j⟩
      (by norm_num) (by norm_num) rfl rfl
      (fun k _ j _ => by
        simp only [Mat.entry]
        have hk : (0 : ℚ) ≤ k := Nat.cast_nonneg k
        have hj2 : (0 : ℚ) ≤ j := Nat.cast_nonneg j
        linarith)⟩

/-- C10: on a path matrix with `1 + f` rows and `s` columns and a nonnegative
notional, `range_accrual` with `n_fix_dates = f` and `n_simulations = s`
returns a value between `0` and the notional for every pair of bounds. -/
theorem C10_price_between_zero_and_notional (notional lower_bound upper_bound : ℚ)
    (f s : ℕ) (fx_corr : Mat) (hf : 1 ≤ f) (hs : 1 ≤ s)
    (hrows : fx_corr.rows = 1 + f) (hcols : fx_corr.cols = s)
    (hnot : 0 ≤ notional) :
    0 ≤ range_accrual notional f s fx_corr upper_bound lower_bound ∧
    range_accrual notional f s fx_corr upper_bound lower_bound ≤ notional := by
  have hfQ : (0 : ℚ) < f := Nat.cast_pos.mpr (by omega)
  have hsQ : (0 : ℚ) < s := Nat.cast_pos.mpr (by omega)
  have hterm_nonneg : ∀ j ∈ Finset.range fx_corr.cols,
      0 ≤ notional * ((win_count fx_corr j upper_bound lower_bound : ℚ) / f) := by
    intro j _
    have : (0 : ℚ) ≤ (win_count fx_corr j upper_bound lower_bound : ℚ) / f :=
      div_nonneg (Nat.cast_nonneg _) hfQ.le
    exact mul_nonneg hnot this
  have hterm_le : ∀ j ∈ Finset.range fx_corr.cols,
      notional * ((win_count fx_corr j upper_bound lower_bound : ℚ) / f) ≤ notional := by
    intro j _
    have hcnt : win_count fx_corr j upper_bound lower_bound ≤ f := by
      have := win_count_le_rows fx_corr j upper_bound lower_bound
      omega
    have hshare : ((win_count fx_corr j upper_bound lower_bound : ℚ) / f) ≤ 1 := by
      rw [div_le_one hfQ]
      exact_mod_cast hcnt
    calc notional * ((win_count fx_corr j upper_bound lower_bound : ℚ) / f)
        ≤ notional * 1 := by
          exact mul_le_mul_of_nonneg_left hshare hnot
      _ = notional := mul_one notional
  unfold range_accrual
  constructor
  · exact div_nonneg (Finset.sum_nonneg hterm_nonneg) hsQ.le
  · rw [div_le_iff₀ hsQ]
    calc (∑ j ∈ Finset.range fx_corr.cols,
          notional * ((win_count fx_corr j upper_bound lower_bound : ℚ) / f))
        ≤ ∑ j ∈ Finset.range fx_corr.cols, notional :=
          Finset.sum_le_sum hterm_le
      _ = fx_corr.cols * notional := by
          rw [Finset.sum_const, Finset.card_range, nsmul_eq_mul]
      _ = notional * s := by rw [hcols, mul_comm]

/-- Witness for C10 at concrete inputs. -/
theorem C10_price_between_zero_and_notional_witness :
    (1 : ℕ) ≤ 2 ∧ (1 : ℕ) ≤ 2 ∧
    (Mat.mk 3 2 fun k j => k + j).rows = 1 + 2 ∧
    (Mat.mk 3 2 fun k j => k + j).cols = 2 ∧ (0 : ℚ) ≤ 10 ∧
    (0 ≤ range_accrual 10 2 2 ⟨3, 2, fun k j => k + j⟩ (5 / 2) 1 ∧
     range_accrual 10 2 2 ⟨3, 2, fun k j => k + j⟩ (5 / 2) 1 ≤ 10) :=
  ⟨by norm_num, by norm_num, rfl, rfl, by norm_num,
    C10_price_between_zero_and_notional 10 1 (5 / 2) 2 2 ⟨3, 2, fun k j => k + j⟩
      (by norm_num) (by norm_num) rfl rfl (by norm_num)⟩

/-- Row of the history table consumed by `range_accrual_pricing`
(`range_accrual.py` lines 30-41): the `Date`, `RUR`, `USD` and `FX-Rate`
columns of one observation. -/
structure HistRow where
  date : ℤ
  rur : ℚ
  usd : ℚ
  fx : ℚ
deriving DecidableEq

/-- Pairs each row with its pandas index label. The ingestion collaborator
(`ru_web_scraper.build_dataframe`) ends with
`sort_values('date').reset_index(drop=True)`, so the table arrives sorted
ascending by date with the default `RangeIndex` labels `0, 1, 2, ...`. -/
def withDefaultIndex (history_data : List HistRow) : List (ℕ × HistRow) :=
  history_data.enum

/-- Ordered insert for a descending-by-date sort that keeps index labels. -/
def insertDescByDate (p : ℕ × HistRow) :
    List (ℕ × HistRow) → List (ℕ × HistRow)
  | [] => [p]
  | q :: rest =>
    if q.2.date ≤ p.2.date then p :: q :: rest else q :: insertDescByDate p rest

/-- Model of `history_data.sort_values(by=['Date'], ascending=False)`: rows are
reordered descending by date but every row keeps its original index label
(pandas `sort_values` does not reset the index). -/
def sort_values_desc : List (ℕ × HistRow) → List (ℕ × HistRow)
  | [] => []
  | p :: rest => insertDescByDate p (sort_values_desc rest)

/-- Model of `series[0]` on an integer-labelled pandas Series: `[0]` is
label-based lookup, returning the element whose index label is `0`, wherever
it now sits after sorting. -/
def loc_label (l : List (ℕ × HistRow)) (label : ℕ) : Option HistRow :=
  (l.find? (fun p => p.1 == label)).map (fun p => p.2)

/-- Embedding of the start-point extraction of `range_accrual_pricing`
(`range_accrual.py` lines 38-41): each of
`history_data.sort_values(by=['Date'], ascending=False)['COL'][0]` for
`COL` in `RUR`, `USD`, `FX-Rate` sorts descending by date and then takes the
element with index label `0`. -/
def start_points (history_data : List HistRow) :
    Option ℚ × Option ℚ × Option ℚ :=
  ((loc_label (sort_values_desc (withDefaultIndex history_data)) 0).map HistRow.rur,
   (loc_label (sort_values_desc (withDefaultIndex history_data)) 0).map HistRow.usd,
   (loc_label (sort_values_desc (withDefaultIndex history_data)) 0).map HistRow.fx)

/-- C1 fails on the code: for the two-row ascending history with rows
`(date 1, RUR 10, USD 30, FX 70)` and `(date 2, RUR 20, USD 40, FX 80)`, the
extraction returns the values `(10, 30, 70)` of the OLDEST row (index label
`0`), not the values `(20, 40, 80)` of the row with the maximum date: after
`sort_values(ascending=False)` the original labels are kept and `[0]` is
label-based, so the descending sort has no effect on what is selected. -/
theorem C1_start_point_uses_oldest_row :
    start_points [⟨1, 10, 30, 70⟩, ⟨2, 20, 40, 80⟩]
      = (some 10, some 30, some 70) ∧
    ((10 : ℚ), (30 : ℚ), (70 : ℚ)) ≠ ((20 : ℚ), (40 : ℚ), (80 : ℚ)) := by
  decide

/-- Model of a numpy double-precision value on the calibration path: a finite
rational, a signed infinity, or NaN. Numpy float arithmetic does not raise on
division by zero or on an invalid operation; it produces these non-finite
sentinel values (at most emitting a runtime warning). -/
inductive NFloat where
  | fin (q : ℚ)
  | inf
  | ninf
  | nan
deriving DecidableEq

namespace NFloat

/-- IEEE-style addition. -/
def add : NFloat → NFloat → NFloat
  | fin p, fin q => fin (p + q)
  | fin _, inf => inf
  | inf, fin _ => inf
  | inf, inf => inf
  | fin _, ninf => ninf
  | ninf, fin _ => ninf
  | ninf, ninf => ninf
  | inf, ninf => nan
  | ninf, inf => nan
  | nan, _ => nan
  | _, nan => nan

/-- IEEE-style negation. -/
def neg : NFloat → NFloat
  | fin q => fin (-q)
  | inf => ninf
  | ninf => inf
  | nan => nan

/-- IEEE-style subtraction. -/
def sub (x y : NFloat) : NFloat := add x (neg y)

/-- IEEE-style multiplication (`0 * inf` is NaN). -/
def mul : NFloat → NFloat → NFloat
  | fin p, fin q => fin (p * q)
  | fin p, inf => if 0 < p then inf else if p < 0 then ninf else nan
  | inf, fin p => if 0 < p then inf else if p < 0 then ninf else nan
  | fin p, ninf => if 0 < p then ninf else if p < 0 then inf else nan
  | ninf, fin p => if 0 < p then ninf else if p < 0 then inf else nan
  | inf, inf => inf
  | inf, ninf => ninf
  | ninf, inf => ninf
  | ninf, ninf => inf
  | nan, _ => nan
  | _, nan => nan

/-- IEEE-style division as numpy performs it: a nonzero finite value divided
by zero gives a signed infinity, `0 / 0` gives NaN, and no error is raised. -/
def div : NFloat → NFloat → NFloat
  | fin p, fin q =>
    if q = 0 then (if 0 < p then inf else if p < 0 then ninf else nan)
    else fin (p / q)
  | fin _, inf => fin 0
  | fin _, ninf => fin 0
  | inf, fin q => if 0 ≤ q then inf else ninf
  | ninf, fin q => if 0 ≤ q then ninf else inf
  | inf, inf => nan
  | inf, ninf => nan
  | ninf, inf => nan
  | ninf, ninf => nan
  | nan, _ => nan
  | _, nan => nan

/-- Model of `np.abs`. -/
def nabs : NFloat → NFloat
  | fin q => fin |q|
  | inf => inf
  | ninf => inf
  | nan => nan

/-- Model of `np.sqrt`: NaN on a negative argument, otherwise the abstract
square-root routine `sqrtFn` on the finite part. -/
def nsqrt (sqrtFn : ℚ → ℚ) : NFloat → NFloat
  | fin q => if q < 0 then nan else fin (sqrtFn q)
  | inf => inf
  | ninf => nan
  | nan => nan

instance : Add NFloat := ⟨add⟩
instance : Sub NFloat := ⟨sub⟩
instance : Mul NFloat := ⟨mul⟩
instance : Div NFloat := ⟨div⟩

/-- Model of `np.sum` on a vector of modelled floats. -/
def sumN (l : List NFloat) : NFloat := l.foldl add (fin 0)

end NFloat

/-- Model of `np.linalg.inv` on a symmetric-shaped 2x2 matrix
`[[m11, m12], [m21, m22]]`: LAPACK raises `LinAlgError` exactly when Gaussian
elimination meets an exactly-zero pivot, which for a 2x2 matrix is the case
of an exactly-zero determinant; NaN or infinite entries (determinant NaN) do
not raise and simply propagate through the returned entries. -/
def inv2x2 (m11 m12 m21 m22 : NFloat) :
    Except String (NFloat × NFloat × NFloat × NFloat) :=
  let d := m11 * m22 - m12 * m21
  if d = NFloat.fin 0 then Except.error "Singular matrix"
  else Except.ok (m22 / d, NFloat.neg m12 / d, NFloat.neg m21 / d, m11 / d)

/-- Column of square roots `np.sqrt(np.abs(interest_rate.iloc[:-1]))` shared
by the three regression vectors of `estimate_ols` (`cir.py` lines 42-55). -/
def ols_sq (sqrtFn : ℚ → ℚ) (interest_rate : List ℚ) : List NFloat :=
  interest_rate.dropLast.map (fun r => NFloat.nsqrt sqrtFn (NFloat.nabs (NFloat.fin r)))

/-- Regression target `y = (r[1:] - r[:-1]) / np.sqrt(np.abs(r[:-1]))` of
`estimate_ols`. -/
def ols_y (sqrtFn : ℚ → ℚ) (interest_rate : List ℚ) : List NFloat :=
  List.zipWith (fun rn s => (NFloat.fin rn.1 - NFloat.fin rn.2) / s)
    (List.zip interest_rate.tail interest_rate.dropLast)
    (ols_sq sqrtFn interest_rate)

/-- First design column `x1 = delta_t / np.sqrt(np.abs(r[:-1]))` of
`estimate_ols`. -/
def ols_x1 (sqrtFn : ℚ → ℚ) (delta_t : ℚ) (interest_rate : List ℚ) : List NFloat :=
  (ols_sq sqrtFn interest_rate).map (fun s => NFloat.fin delta_t / s)

/-- Second design column `x2 = delta_t * np.sqrt(np.abs(r[:-1]))` of
`estimate_ols`. -/
def ols_x2 (sqrtFn : ℚ → ℚ) (delta_t : ℚ) (interest_rate : List ℚ) : List NFloat :=
  (ols_sq sqrtFn interest_rate).map (fun s => NFloat.fin delta_t * s)

/-- Entry `(X.T @ X)[0][0]` of the normal-equation matrix of `estimate_ols`. -/
def ols_s11 (sqrtFn : ℚ → ℚ) (delta_t : ℚ) (interest_rate : List ℚ) : NFloat :=
  NFloat.sumN (List.zipWith (fun p q => p * q)
    (ols_x1 sqrtFn delta_t interest_rate) (ols_x1 sqrtFn delta_t interest_rate))

/-- Entry `(X.T @ X)[0][1] = (X.T @ X)[1][0]` of the normal-equation matrix. -/
def ols_s12 (sqrtFn : ℚ → ℚ) (delta_t : ℚ) (interest_rate : List ℚ) : NFloat :=
  NFloat.sumN (List.zipWith (fun p q => p * q)
    (ols_x1 sqrtFn delta_t interest_rate) (ols_x2 sqrtFn delta_t interest_rate))

/-- Entry `(X.T @ X)[1][1]` of the normal-equation matrix. -/
def ols_s22 (sqrtFn : ℚ → ℚ) (delta_t : ℚ) (interest_rate : List ℚ) : NFloat :=
  NFloat.sumN (List.zipWith (fun p q => p * q)
    (ols_x2 sqrtFn delta_t interest_rate) (ols_x2 sqrtFn delta_t interest_rate))

/-- Determinant of the normal-equation matrix `X.T @ X` of `estimate_ols`. -/
def ols_xtx_det (sqrtFn : ℚ → ℚ) (delta_t : ℚ) (interest_rate : List ℚ) : NFloat :=
  ols_s11 sqrtFn delta_t interest_rate * ols_s22 sqrtFn delta_t interest_rate
    - ols_s12 sqrtFn delta_t interest_rate * ols_s12 sqrtFn delta_t interest_rate

/-- Embedding of `CoxIngersollRossModel.estimate_ols` (`cir.py` lines 42-55):
`w = np.linalg.inv(X.T @ X) @ X.T @ y`, `a = -1 * w[1]`, `b = w[0] / a`,
`sigma = (1 / (len(y) * delta_t) ** 0.5) * np.sqrt(np.sum((y - X @ w) ** 2))`,
returning the stored triple `(a, b, sigma)`. The only operation that can raise
is `np.linalg.inv`; every other step is numpy float arithmetic, which
propagates non-finite sentinel values silently. -/
def estimate_ols (sqrtFn : ℚ → ℚ) (delta_t : ℚ) (interest_rate : List ℚ) :
    Except String (NFloat × NFloat × NFloat) :=
  match inv2x2 (ols_s11 sqrtFn delta_t interest_rate) (ols_s12 sqrtFn delta_t interest_rate)
      (ols_s12 sqrtFn delta_t interest_rate) (ols_s22 sqrtFn delta_t interest_rate) with
  | Except.error e => Except.error e
  | Except.ok (i11, i12, i21, i22) =>
    let y := ols_y sqrtFn interest_rate
    let x1 := ols_x1 sqrtFn delta_t interest_rate
    let x2 := ols_x2 sqrtFn delta_t interest_rate
    let t1 := NFloat.sumN (List.zipWith (fun p q => p * q) x1 y)
    let t2 := NFloat.sumN (List.zipWith (fun p q => p * q) x2 y)
    let w0 := i11 * t1 + i12 * t2
    let w1 := i21 * t1 + i22 * t2
    let a := NFloat.fin (-1) * w1
    let b := w0 / a
    let residuals := List.zipWith (fun yk xk => yk - (xk.1 * w0 + xk.2 * w1))
      y (List.zip x1 x2)
    let sigma := NFloat.fin 1 / NFloat.nsqrt sqrtFn (NFloat.fin (y.length * delta_t))
      * NFloat.nsqrt sqrtFn (NFloat.sumN (residuals.map (fun r => r * r)))
    Except.ok (a, b, sigma)

/-- Boolean error test on an `Except` outcome. -/
def exceptIsError {e a : Type} : Except e a → Bool
  | Except.error _ => true
  | Except.ok _ => false

/-- Helper: the modelled `np.linalg.inv` raises exactly on a zero determinant. -/
theorem inv2x2_error_iff (m11 m12 m21 m22 : NFloat) :
    exceptIsError (inv2x2 m11 m12 m21 m22) = true ↔
    m11 * m22 - m12 * m21 = NFloat.fin 0 := by
  simp only [inv2x2]
  split
  · next h => simp [exceptIsError, h]
  · next h => simp [exceptIsError, h]

/-- Counterexample to C7 as stated: on the rate series `[0, 1, 2]` (which
contains a rate exactly 0 under a reciprocal) with `delta_t = 1`,
`estimate_ols` does NOT signal a numerical error; the division by zero
produces infinities, `X.T @ X` becomes non-finite, `np.linalg.inv` does not
raise, and the parameters are silently stored as the NaN sentinel. -/
theorem NFloat.hadd_def (x y : NFloat) : x + y = NFloat.add x y := rfl

theorem NFloat.hsub_def (x y : NFloat) : x - y = NFloat.sub x y := rfl

theorem NFloat.hmul_def (x y : NFloat) : x * y = NFloat.mul x y := rfl

theorem NFloat.hdiv_def (x y : NFloat) : x / y = NFloat.div x y := rfl

theorem C7_counterexample :
    (estimate_ols id 1 [0, 1, 2]).toOption
      = some (NFloat.nan, NFloat.nan, NFloat.nan) := by
  have hsq : ols_sq id [0, 1, 2] = [NFloat.fin 0, NFloat.fin 1] := by
    norm_num [ols_sq, NFloat.nsqrt, NFloat.nabs]
  have hx1 : ols_x1 id 1 [0, 1, 2] = [NFloat.inf, NFloat.fin 1] := by
    norm_num [ols_x1, hsq, NFloat.hdiv_def, NFloat.div]
  have hx2 : ols_x2 id 1 [0, 1, 2] = [NFloat.fin 0, NFloat.fin 1] := by
    norm_num [ols_x2, hsq, NFloat.hmul_def, NFloat.mul]
  have hy : ols_y id [0, 1, 2] = [NFloat.inf, NFloat.fin 1] := by
    norm_num [ols_y, hsq, NFloat.hsub_def, NFloat.hdiv_def, NFloat.sub, NFloat.add,
      NFloat.neg, NFloat.div, List.zip]
  have hs11 : ols_s11 id 1 [0, 1, 2] = NFloat.inf := by
    norm_num [ols_s11, hx1, NFloat.sumN, NFloat.hmul_def, NFloat.hadd_def,
      NFloat.mul, NFloat.add]
  have hs12 : ols_s12 id 1 [0, 1, 2] = NFloat.nan := by
    norm_num [ols_s12, hx1, hx2, NFloat.sumN, NFloat.hmul_def, NFloat.hadd_def,
      NFloat.mul, NFloat.add]
  have hs22 : ols_s22 id 1 [0, 1, 2] = NFloat.fin 1 := by
    norm_num [ols_s22, hx2, NFloat.sumN, NFloat.hmul_def, NFloat.hadd_def,
      NFloat.mul, NFloat.add]
  have hinv : inv2x2 NFloat.inf NFloat.nan NFloat.nan (NFloat.fin 1)
      = Except.ok (NFloat.nan, NFloat.nan, NFloat.nan, NFloat.nan) := by
    norm_num [inv2x2, NFloat.hmul_def, NFloat.hsub_def, NFloat.hdiv_def,
      NFloat.mul, NFloat.sub, NFloat.add, NFloat.neg, NFloat.div]
    exact fun h => NFloat.noConfusion h
  unfold estimate_ols
  rw [hs11, hs12, hs22, hinv]
  norm_num [hy, hx1, hx2, NFloat.sumN, NFloat.nsqrt, NFloat.hadd_def, NFloat.hsub_def,
    NFloat.hmul_def, NFloat.hdiv_def, NFloat.add, NFloat.sub, NFloat.mul, NFloat.div,
    NFloat.neg, List.zip, Except.toOption]

/-- C7 amended: `estimate_ols` signals an explicit numerical error exactly
when the determinant of the computed `X.T @ X` is exactly zero (the
`np.linalg.inv` singular-matrix error); a rate exactly 0 does not by itself
signal anything — its reciprocal yields non-finite sentinels that propagate
into the stored parameters. -/
theorem C7_error_iff_singular_design (sqrtFn : ℚ → ℚ) (delta_t : ℚ)
    (interest_rate : List ℚ) :
    exceptIsError (estimate_ols sqrtFn delta_t interest_rate) = true ↔
    ols_xtx_det sqrtFn delta_t interest_rate = NFloat.fin 0 := by
  have h := inv2x2_error_iff (ols_s11 sqrtFn delta_t interest_rate)
    (ols_s12 sqrtFn delta_t interest_rate) (ols_s12 sqrtFn delta_t interest_rate)
    (ols_s22 sqrtFn delta_t interest_rate)
  unfold estimate_ols ols_xtx_det
  cases hinv : inv2x2 (ols_s11 sqrtFn delta_t interest_rate)
      (ols_s12 sqrtFn delta_t interest_rate) (ols_s12 sqrtFn delta_t interest_rate)
      (ols_s22 sqrtFn delta_t interest_rate) with
  | error e =>
    rw [hinv] at h
    have hd := h.mp rfl
    simp [hd, exceptIsError]
  | ok p =>
    rw [hinv] at h
    have hd : ¬ (ols_s11 sqrtFn delta_t interest_rate * ols_s22 sqrtFn delta_t interest_rate
        - ols_s12 sqrtFn delta_t interest_rate * ols_s12 sqrtFn delta_t interest_rate
        = NFloat.fin 0) := fun hc => by simpa [exceptIsError] using h.mpr hc
    obtain ⟨i11, i12, i21, i22⟩ := p
    simp [hd, exceptIsError]

/-- Outcome of the external `scipy.optimize.minimize` call in
`CoxIngersollRossModel.optimize_negative_likelihood` (`cir.py` lines 78-85),
modelled by the fields the caller can observe: the final iterate `x` (a
candidate `(a, b, sigma)`) and the convergence flag `success`. -/
structure OptimizeResult where
  x : ℚ × ℚ × ℚ
  success : Bool
deriving DecidableEq

/-- Mutable parameter state of a `CoxIngersollRossModel` instance. -/
structure CIRModel where
  a : ℚ
  b : ℚ
  sigma : ℚ
  delta_t : ℚ
deriving DecidableEq

/-- Embedding of `CoxIngersollRossModel.optimize_negative_likelihood`
(`cir.py` lines 78-85). The optimizer itself is external, so its outcome is
an input. The source unconditionally runs
`self.a, self.b, self.sigma = mle_result.x` and then `return mle_result`:
there is no test of `mle_result.success` and no raise statement anywhere in
the method, so the function is total. -/
def optimize_negative_likelihood (self : CIRModel) (mle_result : OptimizeResult) :
    CIRModel × OptimizeResult :=
  ({ self with a := mle_result.x.1, b := mle_result.x.2.1, sigma := mle_result.x.2.2 },
   mle_result)

/-- Counterexample to C8 as stated: for a concrete non-converged optimizer
outcome (`success = false`, final iterate `(1, 2, 3)`),
`optimize_negative_likelihood` does not fail; it silently stores the final
iterate as the model's `{a, b, sigma}` and returns normally. -/
theorem C8_counterexample :
    (OptimizeResult.mk (1, 2, 3) false).success = false ∧
    (optimize_negative_likelihood ⟨5, 6, 7, 1⟩ ⟨(1, 2, 3), false⟩).1
      = ⟨1, 2, 3, 1⟩ ∧
    (optimize_negative_likelihood ⟨5, 6, 7, 1⟩ ⟨(1, 2, 3), false⟩).2
      = ⟨(1, 2, 3), false⟩ :=
  ⟨rfl, rfl, rfl⟩

/-- C8 amended: `optimize_negative_likelihood` never fails; for every
optimizer outcome — converged or not — it stores the optimizer's final
iterate as the model's `{a, b, sigma}` (leaving `delta_t` unchanged) and
returns the optimizer result object, whose `success` flag is the only
non-convergence report the caller receives. -/
theorem C8_final_iterate_always_accepted (self : CIRModel)
    (mle_result : OptimizeResult) :
    (optimize_negative_likelihood self mle_result).1.a = mle_result.x.1 ∧
    (optimize_negative_likelihood self mle_result).1.b = mle_result.x.2.1 ∧
    (optimize_negative_likelihood self mle_result).1.sigma = mle_result.x.2.2 ∧
    (optimize_negative_likelihood self mle_result).1.delta_t = self.delta_t ∧
    (optimize_negative_likelihood self mle_result).2 = mle_result :=
  ⟨rfl, rfl, rfl, rfl, rfl⟩
